import Mathlib

/-!
Verification development for the Medical-Document-RAG retrieval pipeline
(backend/models.py, backend/rag_config.py, backend/utils.py,
backend/rag_pipeline.py, backend/redis_cache.py).

Conventions of the shallow embedding:
* Python floats are modelled as exact numbers: concrete stored scores are
  rationals (every IEEE double is a rational), and the arithmetic performed by
  the document ranker (division, square root, natural logarithm) is modelled
  over the reals, with the square root and logarithm passed as parameters so
  that the ranking function itself stays polymorphic and computable.
* Python `dict.get(key)` / `dict.get(key, default)` is modelled by `Option`
  fields and `Option.getD`.
* Python truthiness on strings/numbers/lists (`if doc_id and score`,
  `if not text`, `page or 0`) is modelled by the corresponding emptiness /
  zero tests.
* Functions that raise exceptions are modelled with `Except String`.
* External effects (MongoDB vector search, the embedding service, S3, Redis,
  the LLM) are modelled as oracle inputs: the raw hit lists, side data and raw
  model output are parameters of the embedded functions.
-/

/-! ## Data model (backend/models.py) -/

/-- ContentType enum from models.py: TEXT = "text", IMAGE = "image". -/
inductive ContentType where
  | TEXT
  | IMAGE
deriving DecidableEq

/-- The `.value` of the Python enum member. -/
def ContentType.value : ContentType → String
  | .TEXT => "text"
  | .IMAGE => "image"

/-- A table record from S3 side data. In Python a table is a plain dict; the
fields read by the pipeline are `page` (matched against a chunk page) and
`csv_string` (formatted for the LLM). Missing keys are `none`. -/
structure TableRec where
  page : Option Int := none
  csv_string : Option String := none
deriving DecidableEq

/-- ContextChunk dataclass from models.py. `tables` defaults to `[]`
(`__post_init__` replaces `None` by `[]`, so after construction it is always
a list). Scores are raw similarity values, modelled as rationals. -/
structure ContextChunk where
  content_type : ContentType
  text : String
  pdf_id : String
  page : Int
  score : ℚ
  tables : List TableRec := []
deriving DecidableEq

/-- S3Data dataclass from models.py: tables and `[caption, page_number]`
image entries. -/
structure S3Data where
  tables : List TableRec := []
  images : List (String × Int) := []
deriving DecidableEq

/-- A raw MongoDB text-collection hit, after the `$project` stage of
`retrieve_context` (fields `text`, `pdf_id`, `page_start`, `score`).
Each field is read with `doc.get(...)`, hence `Option`. -/
structure RawTextHit where
  text : Option String := none
  pdf_id : Option String := none
  page_start : Option Int := none
  score : Option ℚ := none
deriving DecidableEq

/-- A raw MongoDB image-collection hit, after the `$project` stage of
`retrieve_context` (fields `text`, `pdf_id`, `page`, `score`). -/
structure RawImageHit where
  text : Option String := none
  pdf_id : Option String := none
  page : Option Int := none
  score : Option ℚ := none
deriving DecidableEq

/-- RetrievalResult dataclass from models.py. The raw Mongo results are
lists of dicts in Python; they are given their projected shapes here.
`s3_cache` maps pdf ids to side data snapshots. -/
structure RetrievalResult where
  context_chunks : List ContextChunk
  raw_mongo_text : List RawTextHit
  raw_mongo_images : List RawImageHit
  s3_cache : List (String × S3Data)
deriving DecidableEq

/-- `RetrievalResult.has_content`: `len(self.context_chunks) > 0`. -/
def RetrievalResult.has_content (r : RetrievalResult) : Bool :=
  decide (0 < r.context_chunks.length)

/-- RAGResponse dataclass from models.py. -/
structure RAGResponse where
  cleaned_response : String
  raw_response : String
  markdown_filepath : Option String := none
  context_used : List ContextChunk := []
deriving DecidableEq

/-- DocumentSelectionResult dataclass from models.py. The relevance score is
a normalized document score, hence real-valued. `content_summary` is a loose
dict in Python; only its presence matters here. -/
structure DocumentSelectionResult where
  doc_id : String
  relevance_score : ℝ
  rank : Nat
  preview_text : Option String := none
  total_chunks : Nat := 0

/-- QueryToDocResponse dataclass from models.py. -/
structure QueryToDocResponse where
  status : String
  query : String
  total_documents_found : Nat
  documents_returned : Nat
  documents : List DocumentSelectionResult
  best_match : Option (String × ℝ) := none
  normalization_method : String := "sqrt"

/-- AutoQueryResponse dataclass from models.py. -/
structure AutoQueryResponse where
  status : String
  query : String
  selected_document : Option String := none
  selection_score : Option ℝ := none
  answer : String := ""
  documents_considered : Nat := 0
  selection_method : String := "sqrt"

/-! ## Configuration (backend/rag_config.py) -/

/-- The pipeline-relevant numeric and enum fields of the RAGConfig dataclass.
Python ints may be negative, hence `Int`; the float `score_threshold` is a
rational. String/secret fields are not read by `validate` and are omitted. -/
structure RAGConfig where
  score_threshold : ℚ := 3/4
  max_chunks : Int := 1
  vector_search_candidates : Int := 100
  doc_selection_chunks : Int := 30
  normalization_method : String := "sqrt"
  min_document_chunks : Int := 2
  max_documents_returned : Int := 5
  embedding_retries : Int := 3
  embedding_delay : Int := 5
deriving DecidableEq

/-- `RAGConfig.validate` from rag_config.py: the checks in source order, each
raising `ValueError` with the given message. Note the source contains no
check of `embedding_delay`. -/
def RAGConfig.validate (c : RAGConfig) : Except String Unit :=
  if c.score_threshold < 0 ∨ c.score_threshold > 1 then
    .error "score_threshold must be between 0 and 1"
  else if c.max_chunks < 1 then
    .error "max_chunks must be at least 1"
  else if c.embedding_retries < 1 then
    .error "embedding_retries must be at least 1"
  else if c.normalization_method ∉ (["none", "linear", "sqrt", "log"] : List String) then
    .error "normalization_method must be one of: none, linear, sqrt, log"
  else if c.min_document_chunks < 1 then
    .error "min_document_chunks must be at least 1"
  else if c.max_documents_returned < 1 then
    .error "max_documents_returned must be at least 1"
  else
    .ok ()

/-! ## Response cleaning (backend/utils.py, clean_llm_response) -/

/-- Leftmost occurrence search: `findTag tag s` returns
`some (before, after)` such that `s = before ++ tag ++ after` for the first
occurrence of `tag` in `s`, and `none` when `tag` does not occur. This is
the scanning behaviour of Python `re` on a literal pattern. -/
def findTag (tag : List Char) : List Char → Option (List Char × List Char)
  | [] => if tag.isPrefixOf ([] : List Char) then some ([], []) else none
  | c :: rest =>
    if tag.isPrefixOf (c :: rest) then some ([], (c :: rest).drop tag.length)
    else
      match findTag tag rest with
      | none => none
      | some (pre, post) => some (c :: pre, post)

/-- The literal `<think>` opening tag of the pattern in clean_llm_response. -/
def openTagL : List Char := "<think>".toList

/-- The literal `</think>` closing tag of the pattern in clean_llm_response. -/
def closeTagL : List Char := "</think>".toList


/-- A tag has no nontrivial border: no proper nonempty prefix of it is also a
suffix of it. This rules out occurrences of the tag that straddle the
boundary of an inserted copy of the tag. -/
def NoBorder (tag : List Char) : Prop :=
  ∀ k, k < tag.length → 0 < k → tag.take k ≠ tag.drop (tag.length - k)

instance (tag : List Char) : Decidable (NoBorder tag) := by
  unfold NoBorder
  infer_instance

/-- Fuel-indexed substitution loop of
`re.sub(r"<think>.*?</think>", "", raw, re.DOTALL)`: repeatedly find the
leftmost `<think>`, then the first `</think>` after it (non-greedy `.*?`),
delete that span, and continue scanning after it. If the leftmost `<think>`
has no `</think>` after it, no later one has either, so the rest of the
string is returned unchanged. The dot matches newlines (DOTALL), which the
character-list model gives for free. The fuel only bounds the recursion;
`s.length` is always enough (each deleted span is nonempty). -/
def removeThinkAux : Nat → List Char → List Char
  | 0, s => s
  | fuel + 1, s =>
    match findTag openTagL s with
    | none => s
    | some (pre, rest) =>
      match findTag closeTagL rest with
      | none => s
      | some (_, post) => pre ++ removeThinkAux fuel post

/-- Removal of all non-greedy `<think>...</think>` spans from a string of
characters. -/
def removeThinkSpans (s : List Char) : List Char :=
  removeThinkAux s.length s

/-- Python `str.strip()`: drop whitespace from both ends. -/
def stripChars (s : List Char) : List Char :=
  ((s.dropWhile Char.isWhitespace).reverse.dropWhile Char.isWhitespace).reverse

/-- `clean_llm_response` from utils.py: remove every non-greedy, case-sensitive
`<think>...</think>` span (DOTALL: spans may contain newlines), then strip
surrounding whitespace. -/
def clean_llm_response (raw_response : String) : String :=
  (stripChars (removeThinkSpans raw_response.toList)).asString

/-! ## Table formatting (backend/utils.py, format_tables_for_llm) -/

/-- Formatting of one table inside `format_tables_for_llm` (0-based index `i`,
reported as `Table i+1`). The CSV reader is passed as a parameter `parseCsv`
(the source delegates to Python `csv.reader`; none of the verified properties
depend on its row-splitting behaviour). An empty `csv_string` or an empty row
list is skipped (`continue`), modelled as `none`. -/
def formatOneTable (parseCsv : String → List (List String)) (i : Nat)
    (table : TableRec) : Option String :=
  let csv_string := table.csv_string.getD ""
  if csv_string = "" then none
  else
    match parseCsv csv_string with
    | [] => none
    | row0 :: restRows =>
      let header := String.intercalate " | " row0
      let separator := String.intercalate " | " (List.replicate row0.length "---")
      let body := String.intercalate "\n" (restRows.map (String.intercalate " | "))
      some ("Table " ++ toString (i + 1) ++ ":\n" ++ header ++ "\n" ++ separator
        ++ "\n" ++ body)

/-- `format_tables_for_llm` from utils.py: markdown rendering of the table
records, joined with blank lines; empty input gives `""`. -/
def format_tables_for_llm (parseCsv : String → List (List String))
    (tables_data : List TableRec) : String :=
  if tables_data.isEmpty then ""
  else
    String.intercalate "\n\n"
      (tables_data.enum.filterMap (fun p => formatOneTable parseCsv p.1 p.2))

/-! ## Context assembly (backend/rag_pipeline.py, _build_context_string) -/

/-- The `Source/Page/Content` block built for one chunk inside
`_build_context_string`, including the appended table section when the chunk
has tables and they format to a nonempty string. -/
def chunkContextStr (parseCsv : String → List (List String))
    (chunk : ContextChunk) : String :=
  let context_str := "Source: " ++ chunk.pdf_id ++ ", Page: " ++ toString chunk.page
    ++ "\nContent: " ++ chunk.text
  if chunk.tables.isEmpty then context_str
  else
    let table_str := format_tables_for_llm parseCsv chunk.tables
    if table_str = "" then context_str
    else context_str ++ "\n\n--- Relevant Tables on this Page ---\n" ++ table_str
      ++ "\n---------------------------------"

/-- `_build_context_string` from rag_pipeline.py: truncate to
`self.config.max_chunks` first, then walk the truncated list skipping chunks
whose text is empty (`if not text: continue`), and join the built blocks with
the fixed separator. The `use_summarization` parameter of the source is unused
in its body and omitted here. -/
def _build_context_string (parseCsv : String → List (List String))
    (max_chunks : Nat) (context_chunks : List ContextChunk) : String :=
  let limited_chunks := context_chunks.take max_chunks
  let context_parts := limited_chunks.foldl
    (fun acc chunk =>
      if chunk.text = "" then acc else acc ++ [chunkContextStr parseCsv chunk]) []
  String.intercalate "\n\n---\n\n" context_parts

/-! ## Threshold-filtered retrieval (backend/rag_pipeline.py, retrieve_context) -/

/-- The pure core of `retrieve_context` on a Redis cache miss: the raw hits of
the two `$vectorSearch` aggregations are inputs; the S3 side-data fetch is the
oracle `s3fetch` (Python also consults a per-pipeline cache, which only changes
where the data comes from, not its value) and `s3snapshot` is the
`self.s3_data_cache` snapshot stored in the result. Both hit lists are filtered
by `doc.get('score', 0) > score_threshold` (strict), then converted to chunks;
text chunks are enriched with the side-data tables whose `page` equals the
chunk `page_start` (`None == None` included, as in Python). -/
def retrieve_context_core (score_threshold : ℚ) (s3fetch : String → S3Data)
    (s3snapshot : List (String × S3Data)) (textResults : List RawTextHit)
    (imageResults : List RawImageHit) : RetrievalResult :=
  let text_filtered := textResults.filter
    (fun doc => score_threshold < doc.score.getD 0)
  let image_filtered := imageResults.filter
    (fun img => score_threshold < img.score.getD 0)
  let textChunks := text_filtered.map (fun doc =>
    let page := doc.page_start
    let s3_data : S3Data :=
      match doc.pdf_id with
      | some p => if p = "" then {} else s3fetch p
      | none => {}
    let tables_for_chunk := s3_data.tables.filter (fun t => t.page = page)
    { content_type := ContentType.TEXT
      text := doc.text.getD ""
      pdf_id := doc.pdf_id.getD ""
      page := page.getD 0
      score := doc.score.getD 0
      tables := tables_for_chunk })
  let imageChunks := image_filtered.map (fun img =>
    ({ content_type := ContentType.IMAGE
       text := img.text.getD ""
       pdf_id := img.pdf_id.getD ""
       page := img.page.getD 0
       score := img.score.getD 0 } : ContextChunk))
  { context_chunks := textChunks ++ imageChunks
    raw_mongo_text := text_filtered
    raw_mongo_images := image_filtered
    s3_cache := s3snapshot }

/-! ## Document ranking
(backend/rag_pipeline.py, find_top_documents_with_normalization) -/

/-- One raw candidate row of the ranking aggregations: the `$project` yields
`doc_id` and `score`, each read with `result.get(...)`. -/
structure Candidate (α : Type) where
  doc_id : Option String := none
  score : Option α := none

/-- The `if doc_id and score:` truthiness guard of the grouping loop: the row
counts only when `doc_id` is present and nonempty and `score` is present and
nonzero. -/
def truthy {α : Type} [DecidableEq α] [OfNat α 0] (c : Candidate α) :
    Option (String × α) :=
  match c.doc_id, c.score with
  | some d, some s => if d = "" then none else if s = 0 then none else some (d, s)
  | _, _ => none

/-- The id/score pairs of the rows passing the truthiness guard, in order. -/
def docPairs {α : Type} [DecidableEq α] [OfNat α 0]
    (all_results : List (Candidate α)) : List (String × α) :=
  all_results.filterMap truthy

/-- Total score of the pairs carrying a given doc id. -/
def pairsTotal {α : Type} [AddCommMonoid α] (pairs : List (String × α))
    (d : String) : α :=
  ((pairs.filter (fun p => p.1 = d)).map Prod.snd).sum

/-- Number of pairs carrying a given doc id. -/
def pairsCount {α : Type} (pairs : List (String × α)) (d : String) : Nat :=
  (pairs.filter (fun p => p.1 = d)).length

/-- `doc_scores[doc_id]` of the source, expressed directly as a sum over the
guarded candidate rows. -/
def docTotal {α : Type} [LinearOrderedField α] (all_results : List (Candidate α))
    (d : String) : α :=
  pairsTotal (docPairs all_results) d

/-- `doc_chunk_counts[doc_id]` of the source, expressed directly as a count
over the guarded candidate rows. -/
def docCount {α : Type} [LinearOrderedField α] (all_results : List (Candidate α))
    (d : String) : Nat :=
  pairsCount (docPairs all_results) d

/-- One update of the pair of insertion-ordered dicts
`doc_scores` / `doc_chunk_counts`: add `s` to the total and bump the count of
the entry with key `d`, or append a fresh entry `(d, s, 1)`. -/
def addCandidate {α : Type} [Add α] (acc : List (String × α × Nat)) (d : String)
    (s : α) : List (String × α × Nat) :=
  match acc with
  | [] => [(d, s, 1)]
  | e :: rest =>
    if e.1 = d then (e.1, e.2.1 + s, e.2.2 + 1) :: rest
    else e :: addCandidate rest d s

/-- The grouping loop of `find_top_documents_with_normalization`: fold the raw
candidate rows through the truthiness guard into the insertion-ordered
per-document (total score, chunk count) table. -/
def groupCandidates {α : Type} [DecidableEq α] [OfNat α 0] [Add α]
    (all_results : List (Candidate α)) : List (String × α × Nat) :=
  all_results.foldl
    (fun acc c =>
      match truthy c with
      | some (d, s) => addCandidate acc d s
      | none => acc) []

/-- `filtered_docs` of the source: the grouped documents whose chunk count is
at least `min_chunks`. -/
def survivingDocs {α : Type} [DecidableEq α] [OfNat α 0] [Add α]
    (all_results : List (Candidate α)) (min_chunks : Int) :
    List (String × α × Nat) :=
  (groupCandidates all_results).filter (fun e => min_chunks ≤ (e.2.2 : Int))

/-- The normalization dispatch of the ranking loop, in source order:
`none`, `linear`, `sqrt` (`total / count ** 0.5`), `log`
(`total / math.log(count + 1)`), otherwise
`raise ValueError(f"Unknown normalization method: ...")`. -/
def normalizeScore {α : Type} [LinearOrderedField α] (sqrtF logF : α → α)
    (normalization : String) (total_score : α) (chunk_count : Nat) :
    Except String α :=
  if normalization = "none" then .ok total_score
  else if normalization = "linear" then .ok (total_score / (chunk_count : α))
  else if normalization = "sqrt" then .ok (total_score / sqrtF (chunk_count : α))
  else if normalization = "log" then .ok (total_score / logF ((chunk_count : α) + 1))
  else .error ("Unknown normalization method: " ++ normalization)

/-- The `normalized_scores` loop: normalize each surviving document in order,
raising at the first document when the method is unknown. -/
def normalizeAll {α : Type} [LinearOrderedField α] (sqrtF logF : α → α)
    (normalization : String) :
    List (String × α × Nat) → Except String (List (String × α))
  | [] => .ok []
  | e :: rest =>
    match normalizeScore sqrtF logF normalization e.2.1 e.2.2 with
    | .error msg => .error msg
    | .ok ns =>
      match normalizeAll sqrtF logF normalization rest with
      | .error msg => .error msg
      | .ok tail => .ok ((e.1, ns) :: tail)

/-- `find_top_documents_with_normalization` from rag_pipeline.py, modelled from
the grouping stage on: the concatenated rows of the two vector searches are the
input `all_results`; group and count, drop documents with fewer than
`min_chunks` chunks, return `[]` if none survives, otherwise normalize
(raising on an unknown method) and sort by normalized score descending
(Python `sorted` is stable). `sqrtF` and `logF` stand for `** 0.5` and
`math.log`. -/
def find_top_documents_with_normalization {α : Type} [LinearOrderedField α]
    (sqrtF logF : α → α) (all_results : List (Candidate α))
    (normalization : String) (min_chunks : Int) :
    Except String (List (String × α)) :=
  let filtered_docs := survivingDocs all_results min_chunks
  if filtered_docs.isEmpty then .ok []
  else
    match normalizeAll sqrtF logF normalization filtered_docs with
    | .error msg => .error msg
    | .ok normalized_scores =>
      .ok (normalized_scores.mergeSort (fun x y => decide (y.2 ≤ x.2)))

/-! ## Auto document selection (backend/rag_pipeline.py, ask_with_auto_selection) -/

/-- The pure core of `ask_with_auto_selection`: the document-selection stage
result and the outcome of the `run` call (which Python wraps in
`try/except`) are inputs. When the selection is not a success with at least
one document, the method returns the `no_documents_found` outcome with the
fixed message; otherwise it answers from `run`, downgrading a raised error to
a `generation_failed` outcome. -/
def ask_with_auto_selection_core (query : String) (normalization : String)
    (doc_selection : QueryToDocResponse)
    (run_outcome : Except String RAGResponse) : AutoQueryResponse :=
  if doc_selection.status ≠ "success" ∨ doc_selection.documents.isEmpty = true then
    { status := "no_documents_found"
      query := query
      answer := "No relevant documents found in the knowledge base."
      documents_considered := doc_selection.total_documents_found
      selection_method := normalization }
  else
    match doc_selection.documents with
    | [] =>
      -- unreachable under the guard; kept total
      { status := "no_documents_found"
        query := query
        answer := "No relevant documents found in the knowledge base."
        documents_considered := doc_selection.total_documents_found
        selection_method := normalization }
    | best_doc :: _ =>
      match run_outcome with
      | .ok rag_response =>
        { status := "success"
          query := query
          selected_document := some best_doc.doc_id
          selection_score := some best_doc.relevance_score
          answer := rag_response.cleaned_response
          documents_considered := doc_selection.total_documents_found
          selection_method := normalization }
      | .error e =>
        { status := "generation_failed"
          query := query
          selected_document := some best_doc.doc_id
          selection_score := some best_doc.relevance_score
          answer := "Document selected successfully but failed to generate answer: " ++ e
          documents_considered := doc_selection.total_documents_found
          selection_method := normalization }

/-! ## Top-level run (backend/rag_pipeline.py, RAGPipeline.run) -/

/-- The retrieval and generation oracles of one `run` invocation: the result
of the threshold-filtered retrieval, the result `_fallback_retrieve` would
return, and the raw LLM output as a function of context and question. -/
structure RunEnv where
  retrieved : RetrievalResult
  fallback : RetrievalResult
  rawGen : String → String → String

/-- The observable outcome of one `run` invocation, instrumented with how many
times the fallback retrieval and the generator were invoked. -/
structure RunOutcome where
  response : RAGResponse
  fallback_calls : Nat
  generator_calls : Nat

/-- `RAGPipeline.run` from rag_pipeline.py (debug logging omitted): retrieve;
if `has_content()` is false, replace the result by one fallback retrieval; if
still empty, answer the fixed string with no generator call; build the
context; if it is empty, answer the other fixed string with no generator
call; otherwise call the generator once and clean its output
(`generate_response` = LLM chain + `clean_llm_response`). -/
def RAGPipeline.run (parseCsv : String → List (List String)) (max_chunks : Nat)
    (env : RunEnv) (question : String) : RunOutcome :=
  let retrieval_result :=
    if env.retrieved.has_content = false then env.fallback
    else env.retrieved
  let fallback_calls : Nat :=
    if env.retrieved.has_content = false then 1 else 0
  if retrieval_result.has_content = false then
    { response :=
        { cleaned_response := "No relevant information found."
          raw_response := "No relevant information found." }
      fallback_calls := fallback_calls
      generator_calls := 0 }
  else
    let context := _build_context_string parseCsv max_chunks
      retrieval_result.context_chunks
    if context = "" then
      { response :=
          { cleaned_response := "No relevant information with content was found."
            raw_response := "No relevant information with content was found." }
        fallback_calls := fallback_calls
        generator_calls := 0 }
    else
      let cleaned_response := clean_llm_response (env.rawGen context question)
      { response :=
          { cleaned_response := cleaned_response
            raw_response := cleaned_response
            context_used := retrieval_result.context_chunks }
        fallback_calls := fallback_calls
        generator_calls := 1 }

/-! ## Redis serialization (backend/redis_cache.py) -/

/-- Transport-neutral structured values: the JSON-like shapes produced by
`serialize_for_redis` and consumed by `deserialize_from_redis`. -/
inductive RVal where
  | str : String → RVal
  | intV : Int → RVal
  | num : ℚ → RVal
  | null : RVal
  | listV : List RVal → RVal
  | dict : List (String × RVal) → RVal

/-- Python `d.get(key)` on a serialized dict value. -/
def RVal.getField (v : RVal) (k : String) : Option RVal :=
  match v with
  | .dict fields => fields.lookup k
  | _ => none

/-- Serialization of an optional string field (`None` becomes JSON null). -/
def optStrV : Option String → RVal
  | some s => .str s
  | none => .null

/-- Serialization of an optional integer field. -/
def optIntV : Option Int → RVal
  | some n => .intV n
  | none => .null

/-- Serialization of an optional numeric field. -/
def optNumV : Option ℚ → RVal
  | some q => .num q
  | none => .null

/-- A table record as the generic dict branch of `serialize_for_redis` emits
it (a table is a plain dict in Python; serialization walks it unchanged). -/
def encodeTable (t : TableRec) : RVal :=
  .dict [("page", optIntV t.page), ("csv_string", optStrV t.csv_string)]

/-- The `ContextChunk` branch of `serialize_for_redis`. -/
def serializeChunk (c : ContextChunk) : RVal :=
  .dict [("content_type", .str c.content_type.value),
         ("text", .str c.text),
         ("pdf_id", .str c.pdf_id),
         ("page", .intV c.page),
         ("score", .num c.score),
         ("tables", .listV (c.tables.map encodeTable))]

/-- A raw text hit as the generic dict branch of `serialize_for_redis` emits
it. -/
def encodeTextHit (h : RawTextHit) : RVal :=
  .dict [("text", optStrV h.text), ("pdf_id", optStrV h.pdf_id),
         ("page_start", optIntV h.page_start), ("score", optNumV h.score)]

/-- A raw image hit as the generic dict branch of `serialize_for_redis` emits
it. -/
def encodeImageHit (h : RawImageHit) : RVal :=
  .dict [("text", optStrV h.text), ("pdf_id", optStrV h.pdf_id),
         ("page", optIntV h.page), ("score", optNumV h.score)]

/-- An `S3Data` snapshot entry as `serialize_for_redis` emits it (via
`__dict__`). -/
def encodeS3Data (d : S3Data) : RVal :=
  .dict [("tables", .listV (d.tables.map encodeTable)),
         ("images", .listV (d.images.map (fun p => .listV [.str p.1, .intV p.2])))]

/-- The `RetrievalResult` branch of `serialize_for_redis`: chunks are
serialized with the `ContextChunk` branch, the raw hit lists and the side-data
snapshot through the generic dict/list recursion. -/
def serialize_for_redis (r : RetrievalResult) : RVal :=
  .dict [("context_chunks", .listV (r.context_chunks.map serializeChunk)),
         ("raw_mongo_text", .listV (r.raw_mongo_text.map encodeTextHit)),
         ("raw_mongo_images", .listV (r.raw_mongo_images.map encodeImageHit)),
         ("s3_cache", .dict (r.s3_cache.map (fun p => (p.1, encodeS3Data p.2))))]

/-- `ContentType(value)` of the Python enum: `ValueError` on any other string
is modelled as `none`. -/
def contentTypeOfString (s : String) : Option ContentType :=
  if s = "text" then some ContentType.TEXT
  else if s = "image" then some ContentType.IMAGE
  else none

/-- Decoding of an optional string field back from its serialized form. -/
def decodeOptStr : RVal → Option (Option String)
  | .str s => some (some s)
  | .null => some none
  | _ => none

/-- Decoding of an optional integer field back from its serialized form. -/
def decodeOptInt : RVal → Option (Option Int)
  | .intV n => some (some n)
  | .null => some none
  | _ => none

/-- Decoding of an optional numeric field back from its serialized form. -/
def decodeOptNum : RVal → Option (Option ℚ)
  | .num q => some (some q)
  | .null => some none
  | _ => none

/-- Elementwise decoding of a list (the reconstruction loops of
`deserialize_from_redis`); any failing element is a failure of the whole
decode. -/
def decodeList {γ β : Type} (dec : γ → Option β) : List γ → Option (List β)
  | [] => some []
  | v :: rest =>
    match dec v with
    | none => none
    | some b =>
      match decodeList dec rest with
      | none => none
      | some tl => some (b :: tl)

/-- Decoding of a table record. Python keeps the decoded JSON dicts of the
`tables` field unchanged; in this typed model the identity on serialized
dicts is expressed as decoding back into `TableRec`. -/
def decodeTable (v : RVal) : Option TableRec := do
  let pv ← v.getField "page"
  let p ← decodeOptInt pv
  let cv ← v.getField "csv_string"
  let cs ← decodeOptStr cv
  some { page := p, csv_string := cs }

/-- The chunk reconstruction loop of `deserialize_from_redis`:
`ContentType(chunk_data['content_type'])` (a `KeyError` or `ValueError` is
modelled as `none`), the mandatory `text` / `pdf_id` / `page` / `score`
lookups, and `chunk_data.get('tables', [])`. -/
def decodeChunk (v : RVal) : Option ContextChunk := do
  let ctV ← v.getField "content_type"
  let ctS ← match ctV with | .str s => some s | _ => none
  let ct ← contentTypeOfString ctS
  let textV ← v.getField "text"
  let text ← match textV with | .str s => some s | _ => none
  let pdfV ← v.getField "pdf_id"
  let pdf_id ← match pdfV with | .str s => some s | _ => none
  let pageV ← v.getField "page"
  let page ← match pageV with | .intV n => some n | _ => none
  let scoreV ← v.getField "score"
  let score ← match scoreV with | .num q => some q | _ => none
  let tablesVs := match v.getField "tables" with | some (.listV xs) => xs | _ => []
  let tables ← decodeList decodeTable tablesVs
  some { content_type := ct, text := text, pdf_id := pdf_id, page := page,
         score := score, tables := tables }

/-- Decoding of a raw text hit (the Python identity on decoded JSON dicts,
expressed over the typed record). -/
def decodeTextHit (v : RVal) : Option RawTextHit := do
  let tv ← v.getField "text"
  let t ← decodeOptStr tv
  let pv ← v.getField "pdf_id"
  let p ← decodeOptStr pv
  let psv ← v.getField "page_start"
  let ps ← decodeOptInt psv
  let sv ← v.getField "score"
  let s ← decodeOptNum sv
  some { text := t, pdf_id := p, page_start := ps, score := s }

/-- Decoding of a raw image hit. -/
def decodeImageHit (v : RVal) : Option RawImageHit := do
  let tv ← v.getField "text"
  let t ← decodeOptStr tv
  let pv ← v.getField "pdf_id"
  let p ← decodeOptStr pv
  let pgv ← v.getField "page"
  let pg ← decodeOptInt pgv
  let sv ← v.getField "score"
  let s ← decodeOptNum sv
  some { text := t, pdf_id := p, page := pg, score := s }

/-- Decoding of one image entry `[caption, page_number]` of an S3 snapshot. -/
def decodeS3Image (v : RVal) : Option (String × Int) :=
  match v with
  | .listV [.str c, .intV p] => some (c, p)
  | _ => none

/-- Decoding of an `S3Data` snapshot entry. -/
def decodeS3Data (v : RVal) : Option S3Data := do
  let tablesVs := match v.getField "tables" with | some (.listV xs) => xs | _ => []
  let tables ← decodeList decodeTable tablesVs
  let imagesVs := match v.getField "images" with | some (.listV xs) => xs | _ => []
  let images ← decodeList decodeS3Image imagesVs
  some { tables := tables, images := images }

/-- `deserialize_from_redis(data, target_type=RetrievalResult)` from
redis_cache.py: rebuild typed `ContextChunk` objects from
`data.get('context_chunks', [])` and carry the raw hit lists and cache
snapshot over (`data.get(..., [])` / `data.get('s3_cache', {})`); Python keeps
those as the decoded JSON values, which the typed model expresses by decoding
them back into their records. Any input that is not a dict is returned
unchanged by the source, which the model reports as `none` (no typed result
reconstructed). -/
def deserialize_from_redis (v : RVal) : Option RetrievalResult := do
  match v with
  | .dict _ =>
    let chunkVs := match v.getField "context_chunks" with
      | some (.listV xs) => xs
      | _ => []
    let chunks ← decodeList decodeChunk chunkVs
    let textVs := match v.getField "raw_mongo_text" with
      | some (.listV xs) => xs
      | _ => []
    let raw_text ← decodeList decodeTextHit textVs
    let imageVs := match v.getField "raw_mongo_images" with
      | some (.listV xs) => xs
      | _ => []
    let raw_images ← decodeList decodeImageHit imageVs
    let s3Vs := match v.getField "s3_cache" with
      | some (.dict fs) => fs
      | _ => []
    let s3 ← decodeList (fun p => (decodeS3Data p.2).map (fun d => (p.1, d))) s3Vs
    some { context_chunks := chunks, raw_mongo_text := raw_text,
           raw_mongo_images := raw_images, s3_cache := s3 }
  | _ => none

/-- Invariant of the grouping fold of
`find_top_documents_with_normalization`: the accumulated per-document table
has pairwise-distinct keys, each entry carries exactly the total score and
chunk count of the processed pairs with its key, and keys absent from the
table have processed count zero. -/
def GroupInv {α : Type} [LinearOrderedField α] (pairs : List (String × α))
    (acc : List (String × α × Nat)) : Prop :=
  (acc.map (fun e => e.1)).Nodup
  ∧ (∀ e ∈ acc, e.2.1 = pairsTotal pairs e.1 ∧ e.2.2 = pairsCount pairs e.1)
  ∧ (∀ d : String, d ∉ acc.map (fun e => e.1) → pairsCount pairs d = 0)

/-! ## Supporting lemmas -/

theorem findTag_of_front {tag s : List Char} (hne : tag ≠ [])
    (hp : tag <+: s) : findTag tag s = some ([], s.drop tag.length) := by
  cases s with
  | nil => exact absurd (List.prefix_nil.mp hp) hne
  | cons c rest =>
    have hp' : tag.isPrefixOf (c :: rest) = true := by
      rw [ List.isPrefixOf_iff_prefix]; exact hp
    simp only [findTag, if_pos hp']

theorem findTag_append {tag : List Char} : ∀ {s pre post : List Char},
    findTag tag s = some (pre, post) → s = pre ++ tag ++ post := by
  intro s
  induction s with
  | nil =>
    intro pre post h
    simp only [findTag] at h
    split at h
    · rename_i hp
      rw [ List.isPrefixOf_iff_prefix] at hp
      have htag : tag = [] := List.prefix_nil.mp hp
      injection h with h'
      injection h' with h1 h2
      simp [htag, ← h1, ← h2]
    · exact absurd h (by simp)
  | cons c rest ih =>
    intro pre post h
    simp only [findTag] at h
    split at h
    · rename_i hp
      rw [ List.isPrefixOf_iff_prefix] at hp
      obtain ⟨t, ht⟩ := hp
      injection h with h'
      injection h' with h1 h2
      subst h1
      have hdrop : (c :: rest).drop tag.length = t := by
        rw [← ht, List.drop_left]
      rw [← h2, hdrop]
      simp [← ht]
    · revert h
      split
      · intro h; exact absurd h (by simp)
      · rename_i pre' post' hfind
        intro h
        injection h with h'
        injection h' with h1 h2
        subst h2
        rw [← h1]
        simpa using ih hfind

theorem findTag_length {tag s pre post : List Char}
    (h : findTag tag s = some (pre, post)) :
    pre.length + tag.length + post.length = s.length := by
  have := findTag_append h
  subst this
  simp [List.length_append]
  omega

theorem findTag_eq_none {tag : List Char} (hne : tag ≠ []) :
    ∀ {s : List Char}, findTag tag s = none ↔ ¬ tag <:+: s := by
  intro s
  induction s with
  | nil =>
    simp only [findTag]
    split
    · rename_i hp
      rw [ List.isPrefixOf_iff_prefix] at hp
      exact absurd (List.prefix_nil.mp hp) hne
    · simp [List.infix_nil, hne]
  | cons c rest ih =>
    simp only [findTag]
    split
    · rename_i hp
      rw [ List.isPrefixOf_iff_prefix] at hp
      constructor
      · intro h; exact absurd h (by simp)
      · intro h; exact absurd hp.isInfix h
    · rename_i hp
      have hp' : ¬ tag <+: c :: rest := by
        rw [← List.isPrefixOf_iff_prefix]; simpa using hp
      rw [List.infix_cons_iff]
      cases hfind : findTag tag rest with
      | none =>
        simp only
        constructor
        · intro _
          push_neg
          exact ⟨hp', ih.mp hfind⟩
        · intro _; trivial
      | some pp =>
        simp only
        have hinf : tag <:+: rest := by
          by_contra hc
          rw [← ih] at hc
          simp [hfind] at hc
        constructor
        · intro h; exact absurd h (by simp)
        · intro h; exact absurd (Or.inr hinf) h

/-- If `tag` is border-free and does not occur in `b`, its first occurrence in
`b ++ tag ++ r` is the inserted one. -/
theorem findTag_boundary {tag : List Char} (hb : NoBorder tag) (hne : tag ≠ []) :
    ∀ {b r : List Char}, ¬ tag <:+: b →
      findTag tag (b ++ tag ++ r) = some (b, r) := by
  intro b
  induction b with
  | nil =>
    intro r _
    rw [List.nil_append, findTag_of_front hne ⟨r, rfl⟩, List.drop_left]
  | cons c btl ih =>
    intro r hnotin
    have hnotin' : ¬ tag <:+: btl := by
      intro h
      obtain ⟨u, v, huv⟩ := h
      exact hnotin ⟨c :: u, v, by simp [← huv]⟩
    simp only [List.cons_append, findTag]
    split
    · rename_i hp
      rw [ List.isPrefixOf_iff_prefix] at hp
      exfalso
      obtain ⟨t, ht⟩ := hp
      -- ht : tag ++ t = (c :: btl) ++ tag ++ r  (up to associativity)
      have ht' : tag ++ t = (c :: btl) ++ (tag ++ r) := by
        rw [ht]; simp
      rcases le_or_lt tag.length (c :: btl).length with hle | hlt
      · -- the match at position 0 lies inside c :: btl
        have h1 := congrArg (List.take tag.length) ht'
        rw [List.take_left] at h1
        rw [List.take_append_eq_append_take] at h1
        have h0 : tag.length - (c :: btl).length = 0 := by omega
        rw [h0] at h1
        simp only [List.take_zero, List.append_nil] at h1
        have : tag <+: c :: btl := h1 ▸ List.take_prefix tag.length (c :: btl)
        exact hnotin this.isInfix
      · -- c :: btl is a proper prefix of tag; derive a border of tag
        have h2 := congrArg (List.drop (c :: btl).length) ht'
        rw [List.drop_left] at h2
        rw [List.drop_append_eq_append_drop] at h2
        have h0 : (c :: btl).length - tag.length = 0 := by omega
        rw [h0] at h2
        simp only [List.drop_zero] at h2
        -- h2 : tag.drop (c :: btl).length ++ t = tag ++ r
        have h3 := congrArg (List.take (tag.length - (c :: btl).length)) h2
        rw [List.take_left' (by simp)] at h3
        rw [List.take_append_eq_append_take] at h3
        have h0' : tag.length - (c :: btl).length - tag.length = 0 := by omega
        rw [h0'] at h3
        simp only [List.take_zero, List.append_nil] at h3
        -- h3 : tag.drop (c :: btl).length = tag.take (tag.length - (c :: btl).length)
        have hpos : 0 < (c :: btl).length := by simp
        have hk := hb (tag.length - (c :: btl).length) (by omega) (by omega)
        have heq : tag.length - (tag.length - (c :: btl).length) = (c :: btl).length := by
          omega
        rw [heq] at hk
        exact hk h3.symm
    · have hrec := ih (r := r) hnotin'
      simp only [List.append_assoc] at hrec ⊢
      simp [hrec]


theorem findTag_openTagL_nil : findTag openTagL [] = none := by decide

theorem removeThinkAux_irrel : ∀ (f1 : Nat) (s : List Char) (f2 : Nat),
    s.length ≤ f1 → s.length ≤ f2 → removeThinkAux f1 s = removeThinkAux f2 s := by
  intro f1
  induction f1 with
  | zero =>
    intro s f2 h1 _
    have hs : s = [] := by
      cases s with
      | nil => rfl
      | cons x l => simp at h1
    subst hs
    cases f2 with
    | zero => rfl
    | succ b => simp [removeThinkAux, findTag_openTagL_nil]
  | succ a ih =>
    intro s f2 h1 h2
    cases f2 with
    | zero =>
      have hs : s = [] := by
        cases s with
        | nil => rfl
        | cons x l => simp at h2
      subst hs
      simp [removeThinkAux, findTag_openTagL_nil]
    | succ b =>
      cases hopen : findTag openTagL s with
      | none => simp only [removeThinkAux, hopen]
      | some pr =>
        obtain ⟨pre, rest⟩ := pr
        cases hclose : findTag closeTagL rest with
        | none => simp only [removeThinkAux, hopen, hclose]
        | some mp =>
          obtain ⟨mid, post⟩ := mp
          simp only [removeThinkAux, hopen, hclose]
          have e1 := findTag_length hopen
          have e2 := findTag_length hclose
          have l1 : openTagL.length = 7 := by decide
          have l2 : closeTagL.length = 8 := by decide
          rw [ih post b (by omega) (by omega)]

theorem removeThinkSpans_eq (s : List Char) : removeThinkSpans s =
    match findTag openTagL s with
    | none => s
    | some (pre, rest) =>
      match findTag closeTagL rest with
      | none => s
      | some (_, post) => pre ++ removeThinkSpans post := by
  unfold removeThinkSpans
  cases s with
  | nil => simp [removeThinkAux, findTag_openTagL_nil]
  | cons c s0 =>
    cases hopen : findTag openTagL (c :: s0) with
    | none => simp only [List.length_cons, removeThinkAux, hopen]
    | some pr =>
      obtain ⟨pre, rest⟩ := pr
      cases hclose : findTag closeTagL rest with
      | none => simp only [List.length_cons, removeThinkAux, hopen, hclose]
      | some mp =>
        obtain ⟨mid, post⟩ := mp
        simp only [List.length_cons, removeThinkAux, hopen, hclose]
        have e1 := findTag_length hopen
        have e2 := findTag_length hclose
        have l1 : openTagL.length = 7 := by decide
        have l2 : closeTagL.length = 8 := by decide
        have e1' : pre.length + 7 + rest.length = s0.length + 1 := by
          simpa [l1] using e1
        rw [removeThinkAux_irrel s0.length post post.length (by omega) (le_refl _)]

theorem removeThinkSpans_no_open {s : List Char} (h : ¬ openTagL <:+: s) :
    removeThinkSpans s = s := by
  rw [removeThinkSpans_eq, (findTag_eq_none (by decide)).mpr h]

theorem removeThinkSpans_span (b r : List Char) (h : ¬ closeTagL <:+: b) :
    removeThinkSpans (openTagL ++ (b ++ (closeTagL ++ r))) = removeThinkSpans r := by
  have h1 : findTag openTagL (openTagL ++ (b ++ (closeTagL ++ r)))
      = some ([], b ++ (closeTagL ++ r)) := by
    rw [findTag_of_front (by decide) ⟨b ++ (closeTagL ++ r), rfl⟩, List.drop_left]
  have h2 : findTag closeTagL (b ++ closeTagL ++ r) = some (b, r) :=
    findTag_boundary (by decide) (by decide) h
  have h2' : findTag closeTagL (b ++ (closeTagL ++ r)) = some (b, r) := by
    rw [← List.append_assoc]; exact h2
  rw [removeThinkSpans_eq, h1]
  simp [h2']

theorem build_parts_eq (parseCsv : String → List (List String)) :
    ∀ (l : List ContextChunk) (init : List String),
      l.foldl (fun acc chunk =>
          if chunk.text = "" then acc
          else acc ++ [chunkContextStr parseCsv chunk]) init
        = init ++ (l.filter (fun c => c.text ≠ "")).map (chunkContextStr parseCsv) := by
  intro l
  induction l with
  | nil => intro init; simp
  | cons c tl ih =>
    intro init
    by_cases hc : c.text = ""
    · simp [List.foldl_cons, List.filter_cons, hc, ih]
    · simp [List.foldl_cons, List.filter_cons, hc, ih]

/-- C7: `_build_context_string` first truncates the chunk list to its first
`max_chunks` elements in retrieval order and only then skips empty-text chunks
within that prefix: the output is exactly the joined blocks of the nonempty
chunks of the truncated prefix, and chunks at positions at or beyond
`max_chunks` never contribute (the output is unchanged when the input is
pre-truncated), even when earlier chunks in the prefix have empty text. -/
theorem c7_build_context_truncates_then_skips
    (parseCsv : String → List (List String)) (max_chunks : Nat)
    (context_chunks : List ContextChunk) :
    _build_context_string parseCsv max_chunks context_chunks
      = String.intercalate "\n\n---\n\n"
          (((context_chunks.take max_chunks).filter (fun c => c.text ≠ "")).map
            (chunkContextStr parseCsv))
    ∧ _build_context_string parseCsv max_chunks context_chunks
      = _build_context_string parseCsv max_chunks (context_chunks.take max_chunks) := by
  constructor
  · simp only [_build_context_string]
    rw [build_parts_eq]
    simp
  · simp only [_build_context_string]
    rw [List.take_take]
    simp

/-- C6 counterexample: a configuration with a negative `embedding_delay` and
all other fields in range passes `validate` unchanged, so `validate` does not
reject `embedding_delay < 0`. -/
theorem c6_counterexample :
    ({ embedding_delay := -1 } : RAGConfig).embedding_delay < 0
    ∧ RAGConfig.validate { embedding_delay := -1 } = .ok () := by
  constructor
  · decide
  · norm_num [RAGConfig.validate]

/-- C6 (amended): `validate` succeeds exactly when `score_threshold` is in
`[0, 1]`, `max_chunks`, `embedding_retries`, `min_document_chunks` and
`max_documents_returned` are at least 1, and `normalization_method` is one of
none/linear/sqrt/log; any violation of these is a raised configuration error
(and `RAGPipeline.__init__` calls `validate` before serving any query).
`embedding_delay` is not validated. -/
theorem c6_validate_iff (c : RAGConfig) :
    c.validate = .ok () ↔
      (0 ≤ c.score_threshold ∧ c.score_threshold ≤ 1 ∧ 1 ≤ c.max_chunks
        ∧ 1 ≤ c.embedding_retries
        ∧ c.normalization_method ∈ (["none", "linear", "sqrt", "log"] : List String)
        ∧ 1 ≤ c.min_document_chunks ∧ 1 ≤ c.max_documents_returned) := by
  constructor
  · intro h
    unfold RAGConfig.validate at h
    split_ifs at h with h1 h2 h3 h4 h5 h6
    push_neg at h1
    exact ⟨h1.1, h1.2, by omega, by omega, h4, by omega, by omega⟩
  · rintro ⟨ha, hb, hc, hd, he, hf, hg⟩
    unfold RAGConfig.validate
    rw [if_neg (by push_neg; exact ⟨ha, hb⟩), if_neg (by omega), if_neg (by omega),
      if_neg (not_not_intro he), if_neg (by omega), if_neg (by omega)]

theorem c6_validate_iff_witness : RAGConfig.validate {} = .ok () :=
  (c6_validate_iff {}).mpr
    ⟨by norm_num, by norm_num, by norm_num, by norm_num, by simp, by norm_num,
      by norm_num⟩

/-- C3: in `retrieve_context`, a raw search hit survives the threshold filter
if and only if its score (default 0 when absent) is strictly greater than
`score_threshold`, for both the text and the image collection; in particular a
hit whose score equals `score_threshold` exactly is always excluded. -/
theorem c3_threshold_strict (score_threshold : ℚ) (s3fetch : String → S3Data)
    (s3snapshot : List (String × S3Data)) (textResults : List RawTextHit)
    (imageResults : List RawImageHit) :
    (∀ doc : RawTextHit,
      doc ∈ (retrieve_context_core score_threshold s3fetch s3snapshot textResults
          imageResults).raw_mongo_text
        ↔ doc ∈ textResults ∧ score_threshold < doc.score.getD 0)
    ∧ (∀ img : RawImageHit,
      img ∈ (retrieve_context_core score_threshold s3fetch s3snapshot textResults
          imageResults).raw_mongo_images
        ↔ img ∈ imageResults ∧ score_threshold < img.score.getD 0)
    ∧ (∀ doc : RawTextHit, doc.score = some score_threshold →
        doc ∉ (retrieve_context_core score_threshold s3fetch s3snapshot textResults
          imageResults).raw_mongo_text)
    ∧ (∀ img : RawImageHit, img.score = some score_threshold →
        img ∉ (retrieve_context_core score_threshold s3fetch s3snapshot textResults
          imageResults).raw_mongo_images) := by
  refine ⟨?_, ?_, ?_, ?_⟩
  · intro doc
    simp [retrieve_context_core, List.mem_filter]
  · intro img
    simp [retrieve_context_core, List.mem_filter]
  · intro doc hs
    simp [retrieve_context_core, List.mem_filter, hs]
  · intro img hs
    simp [retrieve_context_core, List.mem_filter, hs]

theorem c3_threshold_strict_witness :
    ({ score := some (3/4) } : RawTextHit) ∉
      (retrieve_context_core (3/4) (fun _ => {}) [] [{ score := some (3/4) }]
        []).raw_mongo_text :=
  (c3_threshold_strict (3/4) (fun _ => {}) [] [{ score := some (3/4) }] []).2.2.1
    { score := some (3/4) } rfl

/-- C2: whenever the threshold-filtered retrieval yields no context chunks
(`has_content()` false), `run` invokes the fallback retrieval exactly once;
and when the fallback result is also empty, `run` returns the fixed answer
"No relevant information found." without ever calling the generator. -/
theorem c2_fallback_once_and_fixed_answer (parseCsv : String → List (List String))
    (max_chunks : Nat) (env : RunEnv) (question : String)
    (h : env.retrieved.has_content = false) :
    (RAGPipeline.run parseCsv max_chunks env question).fallback_calls = 1
    ∧ (env.fallback.has_content = false →
        (RAGPipeline.run parseCsv max_chunks env question).response.cleaned_response
          = "No relevant information found."
        ∧ (RAGPipeline.run parseCsv max_chunks env question).generator_calls = 0) := by
  constructor
  · simp only [RAGPipeline.run, h, eq_self_iff_true, if_true]
    split_ifs <;> rfl
  · intro hf
    simp [RAGPipeline.run, h, hf]

theorem c2_fallback_once_and_fixed_answer_witness :
    (RAGPipeline.run (fun _ => []) 5
      { retrieved := { context_chunks := [], raw_mongo_text := [], raw_mongo_images := [], s3_cache := [] },
        fallback := { context_chunks := [], raw_mongo_text := [], raw_mongo_images := [], s3_cache := [] },
        rawGen := fun _ _ => "raw" } "q").fallback_calls = 1
    ∧ (RAGPipeline.run (fun _ => []) 5
      { retrieved := { context_chunks := [], raw_mongo_text := [], raw_mongo_images := [], s3_cache := [] },
        fallback := { context_chunks := [], raw_mongo_text := [], raw_mongo_images := [], s3_cache := [] },
        rawGen := fun _ _ => "raw" } "q").response.cleaned_response
        = "No relevant information found."
    ∧ (RAGPipeline.run (fun _ => []) 5
      { retrieved := { context_chunks := [], raw_mongo_text := [], raw_mongo_images := [], s3_cache := [] },
        fallback := { context_chunks := [], raw_mongo_text := [], raw_mongo_images := [], s3_cache := [] },
        rawGen := fun _ _ => "raw" } "q").generator_calls = 0 := by
  have h := c2_fallback_once_and_fixed_answer (fun _ => []) 5
    { retrieved := { context_chunks := [], raw_mongo_text := [], raw_mongo_images := [], s3_cache := [] },
      fallback := { context_chunks := [], raw_mongo_text := [], raw_mongo_images := [], s3_cache := [] },
      rawGen := fun _ _ => "raw" } "q" rfl
  exact ⟨h.1, (h.2 rfl).1, (h.2 rfl).2⟩

/-- C10: when the effective retrieval result (the threshold-filtered one, or
the fallback when that one was empty) has a non-empty chunk list but every
chunk in its first `max_chunks` positions has empty text, the assembled
context is empty and `run` returns the fixed answer
"No relevant information with content was found." without calling the
generator — a distinct outcome from the empty-retrieval case. -/
theorem c10_empty_text_prefix (parseCsv : String → List (List String))
    (max_chunks : Nat) (env : RunEnv) (question : String)
    (h1 : (if env.retrieved.has_content = false then env.fallback
        else env.retrieved).context_chunks ≠ [])
    (h2 : ∀ c ∈ (if env.retrieved.has_content = false then env.fallback
        else env.retrieved).context_chunks.take max_chunks, c.text = "") :
    (RAGPipeline.run parseCsv max_chunks env question).response.cleaned_response
      = "No relevant information with content was found."
    ∧ (RAGPipeline.run parseCsv max_chunks env question).generator_calls = 0 := by
  simp only [RAGPipeline.run]
  set rr := if env.retrieved.has_content = false then env.fallback
    else env.retrieved with hrr
  have hhc : rr.has_content = true := by
    simp only [RetrievalResult.has_content, decide_eq_true_eq]
    cases hx : rr.context_chunks with
    | nil => exact absurd hx h1
    | cons a l => simp [hx]
  have hctx : _build_context_string parseCsv max_chunks rr.context_chunks = "" := by
    simp only [_build_context_string]
    rw [build_parts_eq]
    have hfil : (rr.context_chunks.take max_chunks).filter
        (fun c => c.text ≠ "") = [] := by
      rw [List.filter_eq_nil_iff]
      intro a ha
      simp [h2 a ha]
    rw [hfil]
    rfl
  simp [hhc, hctx]

theorem c10_empty_text_prefix_witness :
    (RAGPipeline.run (fun _ => []) 5
      { retrieved := { context_chunks := [{ content_type := ContentType.TEXT, text := "", pdf_id := "p", page := 1, score := 0 }], raw_mongo_text := [], raw_mongo_images := [], s3_cache := [] },
        fallback := { context_chunks := [], raw_mongo_text := [], raw_mongo_images := [], s3_cache := [] },
        rawGen := fun _ _ => "raw" } "q").response.cleaned_response
      = "No relevant information with content was found."
    ∧ (RAGPipeline.run (fun _ => []) 5
      { retrieved := { context_chunks := [{ content_type := ContentType.TEXT, text := "", pdf_id := "p", page := 1, score := 0 }], raw_mongo_text := [], raw_mongo_images := [], s3_cache := [] },
        fallback := { context_chunks := [], raw_mongo_text := [], raw_mongo_images := [], s3_cache := [] },
        rawGen := fun _ _ => "raw" } "q").generator_calls = 0 :=
  c10_empty_text_prefix (fun _ => []) 5
    { retrieved := { context_chunks := [{ content_type := ContentType.TEXT, text := "", pdf_id := "p", page := 1, score := 0 }], raw_mongo_text := [], raw_mongo_images := [], s3_cache := [] },
      fallback := { context_chunks := [], raw_mongo_text := [], raw_mongo_images := [], s3_cache := [] },
      rawGen := fun _ _ => "raw" } "q" (by decide) (by decide)

/-- C5 counterexample: when the document-selection stage reports no documents,
`ask_with_auto_selection` returns status `no_documents_found` but the answer
text is the fixed non-empty message, not an empty string. -/
theorem c5_counterexample :
    (ask_with_auto_selection_core "q" "sqrt"
      { status := "no_documents_found", query := "q", total_documents_found := 0, documents_returned := 0, documents := [] }
      (.ok { cleaned_response := "", raw_response := "" })).status
      = "no_documents_found"
    ∧ (ask_with_auto_selection_core "q" "sqrt"
      { status := "no_documents_found", query := "q", total_documents_found := 0, documents_returned := 0, documents := [] }
      (.ok { cleaned_response := "", raw_response := "" })).answer ≠ "" := by
  constructor
  · rfl
  · intro h
    exact absurd h (by simp [ask_with_auto_selection_core])

/-- C5 (amended): when the document-selection stage does not return a success
with at least one document, `ask_with_auto_selection` returns an outcome with
status `no_documents_found` whose answer is the fixed message
"No relevant documents found in the knowledge base." (a non-empty string),
without consulting the run outcome. -/
theorem c5_no_documents_outcome (query normalization : String)
    (doc_selection : QueryToDocResponse)
    (run_outcome : Except String RAGResponse)
    (h : doc_selection.status ≠ "success" ∨ doc_selection.documents = []) :
    (ask_with_auto_selection_core query normalization doc_selection
        run_outcome).status = "no_documents_found"
    ∧ (ask_with_auto_selection_core query normalization doc_selection
        run_outcome).answer
      = "No relevant documents found in the knowledge base." := by
  have h' : doc_selection.status ≠ "success"
      ∨ doc_selection.documents.isEmpty = true := by
    rcases h with h | h
    · exact Or.inl h
    · exact Or.inr (by simp [h])
  unfold ask_with_auto_selection_core
  rw [if_pos h']
  exact ⟨rfl, rfl⟩

theorem c5_no_documents_outcome_witness :
    (ask_with_auto_selection_core "q" "sqrt"
      { status := "no_documents_found", query := "q", total_documents_found := 0, documents_returned := 0, documents := [] }
      (.error "boom")).status = "no_documents_found"
    ∧ (ask_with_auto_selection_core "q" "sqrt"
      { status := "no_documents_found", query := "q", total_documents_found := 0, documents_returned := 0, documents := [] }
      (.error "boom")).answer
      = "No relevant documents found in the knowledge base." :=
  c5_no_documents_outcome "q" "sqrt"
    { status := "no_documents_found", query := "q", total_documents_found := 0, documents_returned := 0, documents := [] }
    (.error "boom") (Or.inr rfl)

/-- C9: `clean_llm_response` removes every case-sensitive, non-greedy
`<think>...</think>` span (matching across newlines) and strips leading and
trailing whitespace from the remainder: a span whose body contains no
`</think>` is deleted exactly up to the first `</think>` and scanning
continues after it (non-greedy); a string without `<think>` passes the
removal unchanged; the cleaner is removal followed by stripping; the input
"<think>reasoning</think>Final answer." yields exactly "Final answer."; and
uppercase tags are not removed (case sensitivity). -/
theorem c9_clean_llm_response :
    (∀ b r : List Char, ¬ closeTagL <:+: b →
      removeThinkSpans (openTagL ++ (b ++ (closeTagL ++ r)))
        = removeThinkSpans r)
    ∧ (∀ s : List Char, ¬ openTagL <:+: s → removeThinkSpans s = s)
    ∧ (∀ raw : String, clean_llm_response raw
        = (stripChars (removeThinkSpans raw.toList)).asString)
    ∧ clean_llm_response "<think>reasoning</think>Final answer."
        = "Final answer."
    ∧ clean_llm_response "<THINK>reasoning</THINK>Final answer."
        = "<THINK>reasoning</THINK>Final answer." := by
  refine ⟨removeThinkSpans_span, fun s h => removeThinkSpans_no_open h,
    fun raw => rfl, ?_, ?_⟩
  · have hdec : ("<think>reasoning</think>Final answer.").toList
        = openTagL ++ ("reasoning".toList
            ++ (closeTagL ++ ("Final answer.").toList)) := by decide
    unfold clean_llm_response
    rw [hdec, removeThinkSpans_span _ _ (by decide),
      removeThinkSpans_no_open (by decide)]
    decide
  · unfold clean_llm_response
    rw [removeThinkSpans_no_open (by decide)]
    decide

theorem c9_clean_llm_response_witness :
    removeThinkSpans (openTagL ++ ("abc".toList ++ (closeTagL ++ "xy".toList)))
      = removeThinkSpans "xy".toList :=
  c9_clean_llm_response.1 "abc".toList "xy".toList (by decide)

theorem decodeList_map {γ β : Type} {enc : β → γ} {dec : γ → Option β}
    (h : ∀ x, dec (enc x) = some x) :
    ∀ l : List β, decodeList dec (l.map enc) = some l := by
  intro l
  induction l with
  | nil => rfl
  | cons x tl ih => simp [decodeList, h, ih]

theorem decodeTable_encodeTable (t : TableRec) :
    decodeTable (encodeTable t) = some t := by
  cases t with
  | mk p cs => cases p <;> cases cs <;> rfl

theorem decodeChunk_serializeChunk (c : ContextChunk) :
    decodeChunk (serializeChunk c) = some c := by
  cases c with
  | mk ct text pdf page score tables =>
    cases ct <;>
      simp [decodeChunk, serializeChunk, RVal.getField, List.lookup,
        contentTypeOfString, ContentType.value,
        decodeList_map decodeTable_encodeTable]

theorem decodeTextHit_encodeTextHit (h : RawTextHit) :
    decodeTextHit (encodeTextHit h) = some h := by
  cases h with
  | mk t p ps s => cases t <;> cases p <;> cases ps <;> cases s <;> rfl

theorem decodeImageHit_encodeImageHit (h : RawImageHit) :
    decodeImageHit (encodeImageHit h) = some h := by
  cases h with
  | mk t p pg s => cases t <;> cases p <;> cases pg <;> cases s <;> rfl

theorem decodeS3Data_encodeS3Data (d : S3Data) :
    decodeS3Data (encodeS3Data d) = some d := by
  cases d with
  | mk tables images =>
    have hpt : ∀ p : String × Int,
        decodeS3Image (RVal.listV [RVal.str p.1, RVal.intV p.2]) = some p :=
      fun p => rfl
    have himg : decodeList decodeS3Image
        (images.map (fun p => RVal.listV [RVal.str p.1, RVal.intV p.2]))
        = some images :=
      decodeList_map hpt images
    simp [decodeS3Data, encodeS3Data, RVal.getField, List.lookup,
      decodeList_map decodeTable_encodeTable, himg]

theorem deserialize_serialize (r : RetrievalResult) :
    deserialize_from_redis (serialize_for_redis r) = some r := by
  cases r with
  | mk chunks rawt rawi s3 =>
    have hs3 : decodeList
        (fun p : String × RVal => (decodeS3Data p.2).map (fun d => (p.1, d)))
        (s3.map (fun p => (p.1, encodeS3Data p.2))) = some s3 :=
      decodeList_map (fun x => by simp [decodeS3Data_encodeS3Data]) s3
    simp [deserialize_from_redis, serialize_for_redis, RVal.getField, List.lookup,
      decodeList_map decodeChunk_serializeChunk,
      decodeList_map decodeTextHit_encodeTextHit,
      decodeList_map decodeImageHit_encodeImageHit, hs3]

/-- C8: deserializing the serialized form of any `RetrievalResult` with target
type `RetrievalResult` reconstructs typed `ContextChunk` objects (not bare
mappings) whose `content_type`, `text`, `pdf_id`, `page`, `score` and `tables`
are all identical to those of the original chunks. -/
theorem c8_redis_round_trip (r : RetrievalResult) :
    ∃ r' : RetrievalResult,
      deserialize_from_redis (serialize_for_redis r) = some r'
      ∧ List.Forall₂ (fun a b : ContextChunk =>
          a.content_type = b.content_type ∧ a.text = b.text
          ∧ a.pdf_id = b.pdf_id ∧ a.page = b.page ∧ a.score = b.score
          ∧ a.tables = b.tables)
        r.context_chunks r'.context_chunks := by
  refine ⟨r, deserialize_serialize r, ?_⟩
  rw [List.forall₂_same]
  intro x _
  exact ⟨rfl, rfl, rfl, rfl, rfl, rfl⟩

theorem pairsTotal_append {α : Type} [LinearOrderedField α]
    (ps : List (String × α)) (d : String) (s : α) (x : String) :
    pairsTotal (ps ++ [(d, s)]) x
      = pairsTotal ps x + (if d = x then s else 0) := by
  by_cases h : d = x <;>
    simp [pairsTotal, List.filter_append, List.filter_cons, h]

theorem pairsCount_append {α : Type} [LinearOrderedField α]
    (ps : List (String × α)) (d : String) (s : α) (x : String) :
    pairsCount (ps ++ [(d, s)]) x
      = pairsCount ps x + (if d = x then 1 else 0) := by
  by_cases h : d = x <;>
    simp [pairsCount, List.filter_append, List.filter_cons, h]

theorem pairsTotal_eq_zero {α : Type} [LinearOrderedField α]
    {ps : List (String × α)} {x : String}
    (h : pairsCount ps x = 0) : pairsTotal ps x = 0 := by
  unfold pairsCount at h
  unfold pairsTotal
  rw [List.length_eq_zero] at h
  simp [h]

theorem addCandidate_notmem {α : Type} [LinearOrderedField α] {d : String}
    {s : α} : ∀ {acc : List (String × α × Nat)}, (∀ e ∈ acc, e.1 ≠ d) →
      addCandidate acc d s = acc ++ [(d, s, 1)] := by
  intro acc
  induction acc with
  | nil => intro _; rfl
  | cons e rest ih =>
    intro h
    have he : e.1 ≠ d := h e (by simp)
    simp only [addCandidate, if_neg he]
    rw [ih (fun e' he' => h e' (by simp [he']))]
    simp

theorem addCandidate_mem {α : Type} [LinearOrderedField α] {d : String}
    {s : α} : ∀ {acc : List (String × α × Nat)},
      (acc.map (fun e => e.1)).Nodup → d ∈ acc.map (fun e => e.1) →
      addCandidate acc d s
        = acc.map (fun e =>
            if e.1 = d then (e.1, e.2.1 + s, e.2.2 + 1) else e) := by
  intro acc
  induction acc with
  | nil => intro _ hd; simp at hd
  | cons e rest ih =>
    intro hnd hd
    rw [List.map_cons, List.nodup_cons] at hnd
    rw [List.map_cons, List.mem_cons] at hd
    by_cases he : e.1 = d
    · simp only [addCandidate, if_pos he, List.map_cons]
      congr 1
      have hrest : ∀ e' ∈ rest, e'.1 ≠ d := by
        intro e' he' hcontr
        exact hnd.1 (by rw [he, ← hcontr]; exact List.mem_map.mpr ⟨e', he', rfl⟩)
      symm
      calc rest.map (fun e' =>
              if e'.1 = d then (e'.1, e'.2.1 + s, e'.2.2 + 1) else e')
          = rest.map id :=
            List.map_congr_left
              (fun e' he' => by rw [if_neg (hrest e' he')]; rfl)
        _ = rest := List.map_id rest
    · simp only [addCandidate, if_neg he, List.map_cons]
      congr 1
      apply ih hnd.2
      rcases hd with h0 | h0
      · exact absurd h0.symm he
      · exact h0

theorem groupInv_add {α : Type} [LinearOrderedField α]
    {pairs : List (String × α)} {acc : List (String × α × Nat)}
    (d : String) (s : α) (h : GroupInv pairs acc) :
    GroupInv (pairs ++ [(d, s)]) (addCandidate acc d s) := by
  obtain ⟨hnd, hval, hz⟩ := h
  by_cases hd : d ∈ acc.map (fun e => e.1)
  · rw [addCandidate_mem hnd hd]
    have hkeys : (acc.map (fun e =>
        if e.1 = d then (e.1, e.2.1 + s, e.2.2 + 1) else e)).map (fun e => e.1)
        = acc.map (fun e => e.1) := by
      rw [List.map_map]
      apply List.map_congr_left
      intro e _
      by_cases h1 : e.1 = d <;> simp [h1]
    refine ⟨by rw [hkeys]; exact hnd, ?_, ?_⟩
    · intro e he
      rcases List.mem_map.mp he with ⟨e0, he0, hF⟩
      obtain ⟨ht, hc⟩ := hval e0 he0
      by_cases h1 : e0.1 = d
      · rw [if_pos h1] at hF
        subst hF
        refine ⟨?_, ?_⟩
        · rw [pairsTotal_append, ht, h1, if_pos rfl]
        · rw [pairsCount_append, hc, h1, if_pos rfl]
      · rw [if_neg h1] at hF
        subst hF
        refine ⟨?_, ?_⟩
        · rw [pairsTotal_append, ht, if_neg (fun hcontr => h1 hcontr.symm),
            add_zero]
        · rw [pairsCount_append, hc, if_neg (fun hcontr => h1 hcontr.symm),
            add_zero]
    · intro d' hd'
      rw [hkeys] at hd'
      have hdd : d ≠ d' := fun hcontr => hd' (hcontr ▸ hd)
      rw [pairsCount_append, hz d' hd', if_neg hdd]
  · have hne : ∀ e ∈ acc, e.1 ≠ d :=
      fun e he heq => hd (List.mem_map.mpr ⟨e, he, heq⟩)
    rw [addCandidate_notmem hne]
    have hcz : pairsCount pairs d = 0 := hz d hd
    have htz : pairsTotal pairs d = 0 := pairsTotal_eq_zero hcz
    refine ⟨?_, ?_, ?_⟩
    · rw [List.map_append, List.nodup_append]
      refine ⟨hnd, by simp, ?_⟩
      intro x hx hx2
      simp at hx2
      subst hx2
      exact hd hx
    · intro e he
      rcases List.mem_append.mp he with he | he
      · obtain ⟨ht, hc⟩ := hval e he
        have hed : e.1 ≠ d := hne e he
        refine ⟨?_, ?_⟩
        · rw [pairsTotal_append, ht, if_neg (fun hcontr => hed hcontr.symm),
            add_zero]
        · rw [pairsCount_append, hc, if_neg (fun hcontr => hed hcontr.symm),
            add_zero]
      · simp only [List.mem_singleton] at he
        subst he
        refine ⟨?_, ?_⟩
        · show s = _
          rw [pairsTotal_append, htz, if_pos rfl, zero_add]
        · show 1 = _
          rw [pairsCount_append, hcz, if_pos rfl, zero_add]
    · intro d' hd'
      rw [List.map_append] at hd'
      simp only [List.mem_append, not_or] at hd'
      have hdd : d ≠ d' := by
        intro hcontr
        exact hd'.2 (by simp [hcontr])
      rw [pairsCount_append, hz d' hd'.1, if_neg hdd]

theorem groupInv_foldl {α : Type} [LinearOrderedField α] :
    ∀ (ps pairs : List (String × α)) (acc : List (String × α × Nat)),
      GroupInv pairs acc →
      GroupInv (pairs ++ ps)
        (ps.foldl (fun acc p => addCandidate acc p.1 p.2) acc) := by
  intro ps
  induction ps with
  | nil =>
    intro pairs acc h
    rw [List.append_nil]
    exact h
  | cons p tl ih =>
    intro pairs acc h
    have h1 := groupInv_add p.1 p.2 h
    have h2 := ih (pairs ++ [(p.1, p.2)]) (addCandidate acc p.1 p.2) h1
    simp only [List.foldl_cons]
    have heq : pairs ++ p :: tl = (pairs ++ [(p.1, p.2)]) ++ tl := by
      rw [List.append_assoc]
      rfl
    rw [heq]
    exact h2

theorem groupCandidates_eq_foldl_pairs {α : Type} [LinearOrderedField α]
    (all_results : List (Candidate α)) :
    groupCandidates all_results
      = (docPairs all_results).foldl (fun acc p => addCandidate acc p.1 p.2) [] := by
  suffices h : ∀ (l : List (Candidate α)) (acc : List (String × α × Nat)),
      l.foldl (fun acc c =>
        match truthy c with
        | some (d, s) => addCandidate acc d s
        | none => acc) acc
      = (l.filterMap truthy).foldl (fun acc p => addCandidate acc p.1 p.2) acc by
    exact h all_results []
  intro l
  induction l with
  | nil => intro acc; rfl
  | cons c tl ih =>
    intro acc
    simp only [List.foldl_cons, List.filterMap_cons]
    cases ht : truthy c with
    | none => simp only [ht]; exact ih acc
    | some p =>
      obtain ⟨d, s⟩ := p
      simp only [ht, List.foldl_cons]
      exact ih (addCandidate acc d s)

theorem groupCandidates_entries {α : Type} [LinearOrderedField α]
    (all_results : List (Candidate α)) :
    ∀ e ∈ groupCandidates all_results,
      e.2.1 = docTotal all_results e.1 ∧ e.2.2 = docCount all_results e.1 := by
  have h0 : GroupInv ([] : List (String × α)) [] :=
    ⟨by simp, by simp, fun d _ => rfl⟩
  have h := groupInv_foldl (docPairs all_results) [] [] h0
  rw [List.nil_append, ← groupCandidates_eq_foldl_pairs] at h
  intro e he
  exact h.2.1 e he

theorem normalizeScore_ok {α : Type} [LinearOrderedField α] (sqrtF logF : α → α)
    (mode : String) (t : α) (c : Nat) (s : α)
    (h : normalizeScore sqrtF logF mode t c = .ok s) :
    (mode = "none" ∧ s = t) ∨ (mode = "linear" ∧ s = t / (c : α))
    ∨ (mode = "sqrt" ∧ s = t / sqrtF (c : α))
    ∨ (mode = "log" ∧ s = t / logF ((c : α) + 1)) := by
  unfold normalizeScore at h
  split_ifs at h with h1 h2 h3 h4
  · exact Or.inl ⟨h1, by injection h with h'; exact h'.symm⟩
  · exact Or.inr (Or.inl ⟨h2, by injection h with h'; exact h'.symm⟩)
  · exact Or.inr (Or.inr (Or.inl ⟨h3, by injection h with h'; exact h'.symm⟩))
  · exact Or.inr (Or.inr (Or.inr ⟨h4, by injection h with h'; exact h'.symm⟩))

theorem normalizeAll_mem {α : Type} [LinearOrderedField α] (sqrtF logF : α → α)
    (mode : String) :
    ∀ (l : List (String × α × Nat)) (ys : List (String × α)),
      normalizeAll sqrtF logF mode l = .ok ys →
      ∀ p ∈ ys, ∃ e ∈ l, e.1 = p.1
        ∧ normalizeScore sqrtF logF mode e.2.1 e.2.2 = .ok p.2 := by
  intro l
  induction l with
  | nil =>
    intro ys h p hp
    simp only [normalizeAll] at h
    injection h with h'
    subst h'
    simp at hp
  | cons e tl ih =>
    intro ys h p hp
    simp only [normalizeAll] at h
    cases hn : normalizeScore sqrtF logF mode e.2.1 e.2.2 with
    | error msg => rw [hn] at h; cases h
    | ok ns =>
      rw [hn] at h
      cases htl : normalizeAll sqrtF logF mode tl with
      | error msg => rw [htl] at h; cases h
      | ok tail =>
        rw [htl] at h
        injection h with h'
        subst h'
        rcases List.mem_cons.mp hp with hp | hp
        · subst hp
          exact ⟨e, by simp, rfl, hn⟩
        · obtain ⟨e', he', h1, h2⟩ := ih tail htl p hp
          exact ⟨e', by simp [he'], h1, h2⟩

theorem normalizeAll_unknown {α : Type} [LinearOrderedField α]
    (sqrtF logF : α → α) (mode : String)
    (hmode : mode ∉ (["none", "linear", "sqrt", "log"] : List String))
    (e : String × α × Nat) (tl : List (String × α × Nat)) :
    normalizeAll sqrtF logF mode (e :: tl)
      = .error ("Unknown normalization method: " ++ mode) := by
  simp only [List.mem_cons, List.mem_singleton, not_or] at hmode
  obtain ⟨m1, m2, m3, m4, _⟩ := hmode
  simp only [normalizeAll, normalizeScore, if_neg m1, if_neg m2, if_neg m3,
    if_neg m4]

/-- C1 counterexample: with one candidate chunk for document "X" and
`min_chunks = 2`, no document survives the minimum-chunk filter, and
`find_top_documents_with_normalization` with the unknown mode "bogus" returns
the empty ranking instead of raising a configuration error, refuting the
claim that an unknown mode always raises. -/
theorem c1_counterexample :
    find_top_documents_with_normalization Real.sqrt Real.log
      [{ doc_id := some "X", score := some 1 }] "bogus" 2 = .ok [] := by
  have h : survivingDocs (α := ℝ) [{ doc_id := some "X", score := some 1 }] 2
      = [] := by
    norm_num [survivingDocs, groupCandidates, truthy, addCandidate,
      eq_false (by decide : ("X" : String) ≠ "")]
  simp [find_top_documents_with_normalization, h]

/-- C1 (amended): whenever `find_top_documents_with_normalization` returns a
ranking, every document in it carries the normalized score computed exactly
as: total for mode `none`, total / count for `linear`, total / sqrt(count)
for `sqrt`, total / ln(count + 1) for `log` — where total and count are that
document's summed score and chunk count over the truthy candidate rows; and
for any mode outside those four, whenever at least one document survives the
minimum-chunk filter the function raises the configuration error (with no
surviving document it returns the empty ranking without inspecting the
mode). -/
theorem c1_normalization_formulas (all_results : List (Candidate ℝ))
    (min_chunks : Int) :
    (∀ (mode : String) (ranking : List (String × ℝ)),
      find_top_documents_with_normalization Real.sqrt Real.log all_results
        mode min_chunks = .ok ranking →
      ∀ p ∈ ranking,
        (mode = "none" ∧ p.2 = docTotal all_results p.1)
        ∨ (mode = "linear"
            ∧ p.2 = docTotal all_results p.1 / (docCount all_results p.1 : ℝ))
        ∨ (mode = "sqrt"
            ∧ p.2 = docTotal all_results p.1
                / Real.sqrt (docCount all_results p.1 : ℝ))
        ∨ (mode = "log"
            ∧ p.2 = docTotal all_results p.1
                / Real.log ((docCount all_results p.1 : ℝ) + 1)))
    ∧ (∀ mode : String,
        mode ∉ (["none", "linear", "sqrt", "log"] : List String) →
        survivingDocs all_results min_chunks ≠ [] →
        find_top_documents_with_normalization Real.sqrt Real.log all_results
          mode min_chunks
          = .error ("Unknown normalization method: " ++ mode)) := by
  constructor
  · intro mode ranking hok p hp
    simp only [find_top_documents_with_normalization] at hok
    split_ifs at hok with hempty
    · injection hok with h'
      subst h'
      simp at hp
    · cases hall : normalizeAll Real.sqrt Real.log mode
          (survivingDocs all_results min_chunks) with
      | error m => rw [hall] at hok; cases hok
      | ok ns =>
        rw [hall] at hok
        injection hok with h'
        subst h'
        rw [List.mem_mergeSort] at hp
        obtain ⟨e, he, heq, hns⟩ :=
          normalizeAll_mem Real.sqrt Real.log mode _ ns hall p hp
        have hmem : e ∈ groupCandidates all_results :=
          (List.mem_filter.mp he).1
        obtain ⟨ht, hc⟩ := groupCandidates_entries all_results e hmem
        have hd := normalizeScore_ok Real.sqrt Real.log mode e.2.1 e.2.2 p.2 hns
        rw [ht, hc, heq] at hd
        exact hd
  · intro mode hmode hne
    simp only [find_top_documents_with_normalization]
    rw [if_neg (by simpa [List.isEmpty_iff] using hne)]
    cases hsd : survivingDocs all_results min_chunks with
    | nil => exact absurd hsd hne
    | cons e tl =>
      rw [normalizeAll_unknown Real.sqrt Real.log mode hmode e tl]

theorem c1_normalization_formulas_witness :
    find_top_documents_with_normalization Real.sqrt Real.log
      [{ doc_id := some "X", score := some 1 }] "bogus" 1
      = .error ("Unknown normalization method: " ++ "bogus") :=
  (c1_normalization_formulas [{ doc_id := some "X", score := some 1 }] 1).2
    "bogus" (by decide)
    (by norm_num [survivingDocs, groupCandidates, truthy, addCandidate,
      eq_false (by decide : ("X" : String) ≠ "")])

/-- C4: no document whose chunk count over the truthy candidate rows is below
`min_chunks` ever appears in a ranking returned by
`find_top_documents_with_normalization`, for any score values; and when no
document survives the minimum-chunk filter the function returns the empty
ranking rather than raising an error. -/
theorem c4_min_chunk_filter (all_results : List (Candidate ℝ)) (mode : String)
    (min_chunks : Int) :
    (∀ (ranking : List (String × ℝ)),
      find_top_documents_with_normalization Real.sqrt Real.log all_results
        mode min_chunks = .ok ranking →
      ∀ p ∈ ranking, min_chunks ≤ (docCount all_results p.1 : Int))
    ∧ (survivingDocs all_results min_chunks = [] →
      find_top_documents_with_normalization Real.sqrt Real.log all_results
        mode min_chunks = .ok []) := by
  constructor
  · intro ranking hok p hp
    simp only [find_top_documents_with_normalization] at hok
    split_ifs at hok with hempty
    · injection hok with h'
      subst h'
      simp at hp
    · cases hall : normalizeAll Real.sqrt Real.log mode
          (survivingDocs all_results min_chunks) with
      | error m => rw [hall] at hok; cases hok
      | ok ns =>
        rw [hall] at hok
        injection hok with h'
        subst h'
        rw [List.mem_mergeSort] at hp
        obtain ⟨e, he, heq, _⟩ :=
          normalizeAll_mem Real.sqrt Real.log mode _ ns hall p hp
        have hmem := List.mem_filter.mp he
        have hcnt : min_chunks ≤ (e.2.2 : Int) := by
          have := hmem.2
          simpa using this
        obtain ⟨_, hc⟩ :=
          groupCandidates_entries all_results e hmem.1
        rw [hc, heq] at hcnt
        exact hcnt
  · intro h
    simp only [find_top_documents_with_normalization]
    rw [if_pos (by simp [h])]

theorem c4_min_chunk_filter_witness :
    find_top_documents_with_normalization Real.sqrt Real.log
      ([] : List (Candidate ℝ)) "sqrt" 2 = .ok [] :=
  (c4_min_chunk_filter [] "sqrt" 2).2 rfl
